import Mathlib

/-!
Verification of the eva voice-activity-detection driver.

This file shallowly embeds the algorithmic core of the repository:

* `rms` / `dbfs` — the level meter of `src/utils.cpp`, modelled over the
  real numbers (the C++ code computes with `float`/`double`; the model
  abstracts floating-point rounding but keeps the exact formulas and the
  accumulation loop).
* `step` / `run` — one iteration of the driver loop of `src/main.cpp`
  (lines 66–105) and its iteration over a finite list of captured frames.
  Per the design, the segmentation state machine consumes (frame, loudness)
  pairs: `FrameIn` carries the raw samples together with the loudness the
  driver computed for them, so that the integer/boolean state machine stays
  executable while the real-valued meter is treated separately.
* `runReads` / `implRead` — the loop seen through fallible reads, and the
  ALSA `AudioCapture::Impl::read` error handling of
  `src/audio_capture.cpp` (lines 347–366).
-/

namespace Eva

/-! ## Level meter (src/utils.cpp) -/

/-- Model of `rms` (utils.cpp lines 5–13): `0.0` for an empty frame,
otherwise the square root of the loop-accumulated sum of squared samples
divided by the sample count. The accumulator is kept as the source writes
it, a left fold starting at `0` adding `sample * sample`. -/
noncomputable def rms (x : List Int) : ℝ :=
  if x = [] then 0
  else
    Real.sqrt
      ((x.foldl (fun (acc : ℝ) (sample : Int) => acc + (sample : ℝ) * (sample : ℝ)) 0) /
        (x.length : ℝ))

/-- Full-scale reference of `dbfs` (utils.cpp line 17): `32768.0`. -/
def fullScale : ℝ := 32768

/-- Silence-floor epsilon of `dbfs` (utils.cpp line 18): `1e-9`. -/
noncomputable def epsFloor : ℝ := 1 / 10 ^ 9

/-- Model of `dbfs` (utils.cpp lines 15–19):
`20 * log10((rms x + 1e-9) / 32768)`. -/
noncomputable def dbfs (x : List Int) : ℝ :=
  20 * Real.logb 10 ((rms x + epsFloor) / fullScale)

/-! ## Driver loop state machine (src/main.cpp lines 54–105) -/

/-- The mutable loop variables of `main` (main.cpp lines 60–63). -/
structure LoopState where
  hot : Int
  hold : Int
  segment_active : Bool
  segment_has_audio : Bool
deriving DecidableEq, Repr

/-- Initial loop state (main.cpp lines 60–63): all counters zero, flags
false. -/
def initState : LoopState := ⟨0, 0, false, false⟩

/-- One captured frame as the state machine sees it: the raw samples read
into `buffer` plus the loudness `level = dbfs(buffer)` the driver computed
for it.  The spec's state machine consumes (frame, loudness) pairs; the
loudness field is the meter output and is irrelevant for empty frames,
which are skipped before the meter runs. -/
structure FrameIn where
  samples : List Int
  level : ℚ
deriving DecidableEq, Repr

/-- Observable actions of one loop iteration: the `[VAD] Speech detected`
line, a `transcriber->feed` call, a `transcriber->flush` call, and the
`[Transcription] ...` line (which the code prints after every flush,
whether or not the text is empty). -/
inductive Action where
  | speechDetected (level : ℚ)
  | feed (samples : List Int)
  | flush
  | transcriptionResult
deriving DecidableEq, Repr

/-- `trigger_dbfs` (main.cpp line 56): −35.0 dBFS. -/
def trigger_dbfs : ℚ := -35

/-- `trigger_frames` (main.cpp line 57). -/
def trigger_frames : Int := 10

/-- `release_frames` (main.cpp line 58). -/
def release_frames : Int := 20

/-- Hysteresis update of main.cpp lines 72–81: on a speech-like frame
increment `hot`; once `hot >= trigger_frames`, re-arm `hold`, reset `hot`
and emit the `SpeechDetected` event; on a quiet frame reset `hot`.
Returns the new `(hot, hold, events)`. -/
def vadUpdate (s : LoopState) (level : ℚ) : Int × Int × List Action :=
  if trigger_dbfs < level then
    if trigger_frames ≤ s.hot + 1 then
      (0, release_frames, [Action.speechDetected level])
    else (s.hot + 1, s.hold, [])
  else (0, s.hold, [])

/-- Hold decrement of main.cpp lines 83–85: `if (hold > 0) hold--`. -/
def holdDecrement (hold : Int) : Int :=
  if 0 < hold then hold - 1 else hold

/-- One iteration of the driver loop (main.cpp lines 66–104) on a frame
that was just read.  An empty read is skipped by the `continue` on line 67.
The two sequential `if` statements on lines 87 and 93 have complementary
guards whenever the first one fires (`speech_like || hold > 0` versus
`!speech_like && hold == 0`), so they are rendered as an if/else-if chain;
when the feed branch is not taken, the transition branch sees the unchanged
`segment_active` / `segment_has_audio`, exactly as in the source. -/
def step (enabled : Bool) (s : LoopState) (f : FrameIn) : LoopState × List Action :=
  if f.samples.length = 0 then (s, [])
  else
    let v := vadUpdate s f.level
    let hold2 := holdDecrement v.2.1
    if (trigger_dbfs < f.level ∨ 0 < hold2) ∧ enabled = true then
      (⟨v.1, hold2, true, true⟩, v.2.2 ++ [Action.feed f.samples])
    else if ¬ trigger_dbfs < f.level ∧ hold2 = 0 ∧ s.segment_active = true then
      (⟨v.1, hold2, false, false⟩,
        v.2.2 ++
          (if enabled = true ∧ s.segment_has_audio = true then
            [Action.flush, Action.transcriptionResult]
          else []))
    else (⟨v.1, hold2, s.segment_active, s.segment_has_audio⟩, v.2.2)

/-- The driver loop run over a finite list of captured frames, returning
the final loop state and the concatenated trace of observable actions. -/
def run (enabled : Bool) (s : LoopState) (fs : List FrameIn) : LoopState × List Action :=
  match fs with
  | [] => (s, [])
  | f :: rest =>
    let p := step enabled s f
    let q := run enabled p.1 rest
    (q.1, p.2 ++ q.2)

/-! ## Fallible reads (main.cpp line 67, audio_capture.cpp lines 347–366) -/

/-- Outcome of one `capture.read(buffer)` call: a frame, or a thrown
exception (the ALSA backend throws a `std::runtime_error` when
`snd_pcm_readi` fails and `snd_pcm_recover` cannot repair it). -/
inductive ReadResult where
  | ok (f : FrameIn)
  | fail
deriving DecidableEq, Repr

/-- The driver loop run over a list of read outcomes.  The third component
records whether the session was terminated by an uncaught exception: the
loop body of `main` contains no try/catch, so a throwing read propagates
out of the loop at once and the remaining reads are never performed. -/
def runReads (enabled : Bool) (s : LoopState) (rs : List ReadResult) :
    LoopState × List Action × Bool :=
  match rs with
  | [] => (s, [], false)
  | ReadResult.fail :: _ => (s, [], true)
  | ReadResult.ok f :: rest =>
    let p := step enabled s f
    let q := runReads enabled p.1 rest
    (q.1, p.2 ++ q.2.1, q.2.2)

/-- Error handling of `AudioCapture::Impl::read` (ALSA, audio_capture.cpp
lines 347–366), abstracted over the results of `snd_pcm_readi` and of
`snd_pcm_recover` (called only when the read failed; it returns `0` on a
successful recovery and a negative errno otherwise): a still-negative
frame count after recovery throws; otherwise the frame count is returned
(`0` meaning an empty read, which line 67 of `main.cpp` skips). -/
def implRead (readiResult : Int) (recoverResult : Int) : Except Unit Int :=
  let frames := if readiResult < 0 then recoverResult else readiResult
  if frames < 0 then Except.error () else Except.ok frames

/-! ## Concrete frames used in witnesses and counterexamples -/

/-- A clearly speech-like frame: its loudness −20 dBFS is above the
−35 dBFS trigger. -/
def loudF : FrameIn := ⟨[10000], -20⟩

/-- A clearly quiet frame: its loudness −40 dBFS is below the −35 dBFS
trigger. -/
def silentF : FrameIn := ⟨[10], -40⟩

/-- Predicate selecting the two actions that touch the transcriber
object: `feed` and `flush`. -/
def callsSink : Action → Bool
  | Action.feed _ => true
  | Action.flush => true
  | _ => false

/-- Bounds the per-frame algorithm maintains on the hysteresis counters. -/
def counterInv (s : LoopState) : Prop :=
  0 ≤ s.hot ∧ s.hot ≤ trigger_frames - 1 ∧ 0 ≤ s.hold ∧ s.hold ≤ release_frames - 1

/-! ## Helper lemmas about single steps -/

theorem step_loud_no_trigger (s : LoopState) (f : FrameIn)
    (hne : f.samples.length ≠ 0) (hlev : trigger_dbfs < f.level)
    (hhot : s.hot + 1 < trigger_frames) (hhold : s.hold = 0) :
    step true s f = (⟨s.hot + 1, 0, true, true⟩, [Action.feed f.samples]) := by
  have hnotle : ¬ trigger_frames ≤ s.hot + 1 := not_le.mpr hhot
  simp [step, vadUpdate, holdDecrement, hne, hlev, hhold, hnotle]

theorem step_loud_trigger (s : LoopState) (f : FrameIn)
    (hne : f.samples.length ≠ 0) (hlev : trigger_dbfs < f.level)
    (hhot : trigger_frames ≤ s.hot + 1) :
    step true s f = (⟨0, release_frames - 1, true, true⟩,
      [Action.speechDetected f.level, Action.feed f.samples]) := by
  have h20 : (0 : Int) < release_frames := by norm_num [release_frames]
  simp [step, vadUpdate, holdDecrement, hne, hlev, hhot, h20]

theorem step_silent_hold_gt_one (s : LoopState) (f : FrameIn)
    (hne : f.samples.length ≠ 0) (hlev : f.level ≤ trigger_dbfs)
    (hhold : 1 < s.hold) :
    step true s f = (⟨0, s.hold - 1, true, true⟩, [Action.feed f.samples]) := by
  have hnl : ¬ trigger_dbfs < f.level := not_lt.mpr hlev
  have h0 : (0 : Int) < s.hold := by omega
  have h1 : (0 : Int) < s.hold - 1 := by omega
  simp [step, vadUpdate, holdDecrement, hne, hnl, h0, h1]

theorem step_silent_hold_one_active (s : LoopState) (f : FrameIn)
    (hne : f.samples.length ≠ 0) (hlev : f.level ≤ trigger_dbfs)
    (hhold : s.hold = 1) (hact : s.segment_active = true)
    (haud : s.segment_has_audio = true) :
    step true s f = (⟨0, 0, false, false⟩,
      [Action.flush, Action.transcriptionResult]) := by
  have hnl : ¬ trigger_dbfs < f.level := not_lt.mpr hlev
  simp [step, vadUpdate, holdDecrement, hne, hnl, hhold, hact, haud]

theorem step_nonspeech_hot_zero (e : Bool) (s : LoopState) (f : FrameIn)
    (hlev : f.samples.length ≠ 0 → f.level ≤ trigger_dbfs) (hhot : s.hot = 0) :
    (step e s f).1.hot = 0 ∧ ∀ lv, Action.speechDetected lv ∉ (step e s f).2 := by
  by_cases hne : f.samples.length = 0
  · simp [step, hne, hhot]
  · have hnl : ¬ trigger_dbfs < f.level := not_lt.mpr (hlev hne)
    simp only [step, vadUpdate, holdDecrement, hne, hnl]
    split_ifs <;> simp_all

theorem vadUpdate_eq_of (s t : LoopState) (lv : ℚ)
    (hhot : s.hot = t.hot) (hhold : s.hold = t.hold) :
    vadUpdate s lv = vadUpdate t lv := by
  unfold vadUpdate
  rw [hhot, hhold]

theorem step_fields (e : Bool) (s : LoopState) (f : FrameIn)
    (hne : f.samples.length ≠ 0) :
    (step e s f).1.hot = (vadUpdate s f.level).1 ∧
    (step e s f).1.hold = holdDecrement (vadUpdate s f.level).2.1 := by
  unfold step
  rw [if_neg hne]
  dsimp only
  split
  · exact ⟨rfl, rfl⟩
  · split
    · exact ⟨rfl, rfl⟩
    · exact ⟨rfl, rfl⟩

theorem step_hot_hold_indep (e e' : Bool) (s t : LoopState) (f : FrameIn)
    (hhot : s.hot = t.hot) (hhold : s.hold = t.hold) :
    (step e s f).1.hot = (step e' t f).1.hot ∧
    (step e s f).1.hold = (step e' t f).1.hold := by
  by_cases hne : f.samples.length = 0
  · simp [step, hne, hhot, hhold]
  · obtain ⟨a1, a2⟩ := step_fields e s f hne
    obtain ⟨b1, b2⟩ := step_fields e' t f hne
    rw [a1, a2, b1, b2, vadUpdate_eq_of s t f.level hhot hhold]
    exact ⟨rfl, rfl⟩

theorem step_disabled_flags (s : LoopState) (f : FrameIn)
    (ha : s.segment_active = false) :
    (step false s f).1.segment_active = false ∧
    (step false s f).1.segment_has_audio = s.segment_has_audio := by
  by_cases hne : f.samples.length = 0
  · simp [step, hne, ha]
  · simp only [step, vadUpdate, holdDecrement, hne]
    split_ifs <;> simp_all

theorem step_disabled_only_events (s : LoopState) (f : FrameIn) :
    ∀ a ∈ (step false s f).2, ∃ lv, a = Action.speechDetected lv := by
  by_cases hne : f.samples.length = 0
  · simp [step, hne]
  · simp only [step, vadUpdate, holdDecrement, hne]
    split_ifs <;> simp_all

theorem step_flush_needs_silence (e : Bool) (s : LoopState) (f : FrameIn)
    (h : Action.flush ∈ (step e s f).2 ∨ Action.transcriptionResult ∈ (step e s f).2) :
    f.samples.length ≠ 0 ∧ ¬ trigger_dbfs < f.level := by
  by_cases hne : f.samples.length = 0
  · simp [step, hne] at h
  · refine ⟨hne, ?_⟩
    by_cases hlev : trigger_dbfs < f.level
    · exfalso
      simp only [step, vadUpdate, holdDecrement, hne, hlev] at h
      split_ifs at h <;> simp_all
    · exact hlev

theorem step_counterInv (e : Bool) (s : LoopState) (f : FrameIn)
    (h : counterInv s) : counterInv (step e s f).1 := by
  obtain ⟨h1, h2, h3, h4⟩ := h
  simp only [trigger_frames, release_frames] at h2 h4
  by_cases hne : f.samples.length = 0
  · simpa [step, hne, counterInv, trigger_frames, release_frames] using ⟨h1, h2, h3, h4⟩
  · obtain ⟨hf1, hf2⟩ := step_fields e s f hne
    unfold counterInv
    rw [hf1, hf2]
    unfold vadUpdate holdDecrement
    simp only [trigger_frames, release_frames]
    split_ifs <;> simp_all <;> omega

/-! ## Helper lemmas about runs -/

theorem run_append (e : Bool) (s : LoopState) (xs ys : List FrameIn) :
    run e s (xs ++ ys) =
      ((run e (run e s xs).1 ys).1,
        (run e s xs).2 ++ (run e (run e s xs).1 ys).2) := by
  induction xs generalizing s with
  | nil => simp [run]
  | cons x xs ih => simp [run, ih, List.append_assoc]

theorem run_loud (fs : List FrameIn) : ∀ s : LoopState,
    (∀ g ∈ fs, g.samples.length ≠ 0 ∧ trigger_dbfs < g.level) →
    s.hold = 0 → s.segment_active = true → s.segment_has_audio = true →
    s.hot + (fs.length : Int) ≤ 9 →
    run true s fs = (⟨s.hot + fs.length, 0, true, true⟩,
      fs.map (fun g => Action.feed g.samples)) := by
  induction fs with
  | nil =>
    intro s _ hh ha hb _
    cases s
    simp_all [run]
  | cons f fs ih =>
    intro s hall hh ha hb hbound
    have hf := hall f (by simp)
    have hlen : (0 : Int) ≤ (fs.length : Int) := by positivity
    have hcast : ((f :: fs).length : Int) = (fs.length : Int) + 1 := by
      push_cast [List.length_cons]
      ring
    rw [hcast] at hbound
    have hstep : step true s f = (⟨s.hot + 1, 0, true, true⟩, [Action.feed f.samples]) :=
      step_loud_no_trigger s f hf.1 hf.2
        (by simp only [trigger_frames]; omega) hh
    have hrest := ih ⟨s.hot + 1, 0, true, true⟩
      (fun g hg => hall g (by simp [hg])) rfl rfl rfl (by simp; omega)
    simp only [run, hstep, hrest]
    simp [hcast, Prod.mk.injEq, LoopState.mk.injEq]
    omega

theorem run_silent (fs : List FrameIn) : ∀ s : LoopState,
    (∀ g ∈ fs, g.samples.length ≠ 0 ∧ g.level ≤ trigger_dbfs) →
    s.hot = 0 → s.segment_active = true → s.segment_has_audio = true →
    (fs.length : Int) < s.hold →
    run true s fs = (⟨0, s.hold - fs.length, true, true⟩,
      fs.map (fun g => Action.feed g.samples)) := by
  induction fs with
  | nil =>
    intro s _ hh ha hb _
    cases s
    simp_all [run]
  | cons f fs ih =>
    intro s hall hh ha hb hbound
    have hf := hall f (by simp)
    have hlen : (0 : Int) ≤ (fs.length : Int) := by positivity
    have hcast : ((f :: fs).length : Int) = (fs.length : Int) + 1 := by
      push_cast [List.length_cons]
      ring
    rw [hcast] at hbound
    have hstep : step true s f = (⟨0, s.hold - 1, true, true⟩, [Action.feed f.samples]) :=
      step_silent_hold_gt_one s f hf.1 hf.2 (by omega)
    have hrest := ih ⟨0, s.hold - 1, true, true⟩
      (fun g hg => hall g (by simp [hg])) rfl rfl rfl (by simp; omega)
    simp only [run, hstep, hrest]
    simp [hcast, Prod.mk.injEq, LoopState.mk.injEq]
    omega

/-! ## Claim theorems -/

/-- C7: processing a frame of length zero leaves `hot`, `hold` and the
segment state unchanged, feeds nothing to the sink and emits no event —
the `continue` on line 67 of `main.cpp` skips the frame entirely. -/
theorem C7_empty_frame_skipped (enabled : Bool) (s : LoopState) (lv : ℚ) :
    step enabled s ⟨[], lv⟩ = (s, []) := by
  simp [step]

/-- C9: after every processed frame the hysteresis counters satisfy
`0 ≤ hot ≤ trigger_frames − 1` and `0 ≤ hold ≤ release_frames − 1`; in
particular `hold` never equals `release_frames` at a frame boundary,
because the frame that sets it also decrements it.  The statement
quantifies over all finite frame sequences, so it covers the state after
every prefix of any run. -/
theorem C9_counter_bounds (enabled : Bool) (fs : List FrameIn) :
    counterInv (run enabled initState fs).1 ∧
    (run enabled initState fs).1.hold ≠ release_frames := by
  have hrun : ∀ (gs : List FrameIn) (s : LoopState),
      counterInv s → counterInv (run enabled s gs).1 := by
    intro gs
    induction gs with
    | nil =>
      intro s hs
      simpa [run] using hs
    | cons f rest ih =>
      intro s hs
      simp only [run]
      exact ih _ (step_counterInv enabled s f hs)
  have hinv : counterInv initState := by
    norm_num [counterInv, initState, trigger_frames, release_frames]
  have h := hrun fs initState hinv
  refine ⟨h, ?_⟩
  obtain ⟨_, _, _, h4⟩ := h
  simp only [release_frames] at h4 ⊢
  omega

/-- C10: with transcription disabled the loop never performs a `feed` or
`flush` call on the transcriber, whatever the starting state and the
input frames — so a null transcriber pointer is never dereferenced. -/
theorem C10_no_sink_calls_when_disabled (s : LoopState) (fs : List FrameIn) :
    (run false s fs).2.filter callsSink = [] := by
  induction fs generalizing s with
  | nil => simp [run]
  | cons f rest ih =>
    have hstep : (step false s f).2.filter callsSink = [] := by
      rw [List.filter_eq_nil_iff]
      intro a ha
      obtain ⟨lv, rfl⟩ := step_disabled_only_events s f a ha
      simp [callsSink]
    simp [run, List.filter_append, hstep, ih]

/-- C6: in a run all of whose non-empty frames are at or below the
−35 dBFS threshold, `hot` stays 0 after every frame and no
`SpeechDetected` event ever fires. -/
theorem C6_silence_keeps_hot_zero (enabled : Bool) (s : LoopState) (fs : List FrameIn)
    (hhot : s.hot = 0)
    (hq : ∀ f ∈ fs, f.samples.length ≠ 0 → f.level ≤ trigger_dbfs) :
    (run enabled s fs).1.hot = 0 ∧
    ∀ lv, Action.speechDetected lv ∉ (run enabled s fs).2 := by
  induction fs generalizing s with
  | nil => simpa [run] using hhot
  | cons f rest ih =>
    have hstep := step_nonspeech_hot_zero enabled s f (hq f (by simp)) hhot
    have hrest := ih (step enabled s f).1 hstep.1
      (fun g hg hg2 => hq g (by simp [hg]) hg2)
    simp only [run]
    refine ⟨hrest.1, ?_⟩
    intro lv hmem
    rw [List.mem_append] at hmem
    rcases hmem with h | h
    · exact hstep.2 lv h
    · exact hrest.2 lv h

/-- Witness for C6 at a concrete input: one quiet frame followed by one
empty frame, starting from the initial state. -/
theorem C6_witness :
    (initState.hot = 0 ∧
      ∀ f ∈ [silentF, (⟨[], 0⟩ : FrameIn)],
        f.samples.length ≠ 0 → f.level ≤ trigger_dbfs) ∧
    ((run true initState [silentF, ⟨[], 0⟩]).1.hot = 0 ∧
      ∀ lv, Action.speechDetected lv ∉ (run true initState [silentF, ⟨[], 0⟩]).2) :=
  ⟨⟨rfl, by decide⟩,
    C6_silence_keeps_hot_zero true initState [silentF, ⟨[], 0⟩] rfl (by decide)⟩

set_option maxRecDepth 40000 in
/-- C1 counterexample: from the initial state, 10 frames at −20 dBFS fire
`SpeechDetected`, and then only 19 frames at −40 dBFS already return the
segment to `Idle` (with the `TranscriptionResult` emitted on that 19th
quiet frame) — the claim predicts the segment would still be `Active`
here, with the transition only on a 20th quiet frame. -/
theorem C1_counterexample :
    Action.speechDetected (-20) ∈
      (run true initState (List.replicate 10 loudF ++ List.replicate 19 silentF)).2 ∧
    (run true initState
        (List.replicate 10 loudF ++ List.replicate 19 silentF)).1.segment_active = false ∧
    Action.transcriptionResult ∈
      (run true initState (List.replicate 10 loudF ++ List.replicate 19 silentF)).2 := by
  decide

/-- C1 (amended): right after a frame that fired `SpeechDetected` the
state is `hot = 0`, `hold = 19` (re-armed to 20 and decremented in the
same step), `Active` with audio.  From there the segment remains `Active`
through the first 18 subsequent non-speech-like non-empty frames and
transitions back to `Idle` on the 19th such frame — `release_frames − 1`,
not `release_frames` — emitting the flush and the `TranscriptionResult`
on that frame. -/
theorem C1_amended_holds (s0 : LoopState)
    (hhot : s0.hot = 0) (hhold : s0.hold = 19)
    (hact : s0.segment_active = true) (haud : s0.segment_has_audio = true) :
    (∀ fs : List FrameIn,
        (∀ g ∈ fs, g.samples.length ≠ 0 ∧ g.level ≤ trigger_dbfs) →
        fs.length ≤ 18 →
        (run true s0 fs).1.segment_active = true) ∧
    (∀ (fs : List FrameIn) (f : FrameIn),
        (∀ g ∈ fs, g.samples.length ≠ 0 ∧ g.level ≤ trigger_dbfs) →
        f.samples.length ≠ 0 → f.level ≤ trigger_dbfs → fs.length = 18 →
        run true s0 (fs ++ [f]) =
          ((⟨0, 0, false, false⟩ : LoopState),
            fs.map (fun g => Action.feed g.samples) ++
              [Action.flush, Action.transcriptionResult])) := by
  constructor
  · intro fs hall hlen
    have h := run_silent fs s0 hall hhot hact haud (by rw [hhold]; omega)
    rw [h]
  · intro fs f hall hfne hflev hlen
    have h18 : run true s0 fs =
        ((⟨0, s0.hold - fs.length, true, true⟩ : LoopState),
          fs.map (fun g => Action.feed g.samples)) :=
      run_silent fs s0 hall hhot hact haud (by rw [hhold, hlen]; norm_num)
    have hone : s0.hold - (fs.length : Int) = 1 := by
      rw [hhold, hlen]
      norm_num
    have hstep := step_silent_hold_one_active ⟨0, 1, true, true⟩ f hfne hflev rfl rfl rfl
    rw [run_append, h18]
    dsimp only
    rw [hone]
    simp [run, hstep]

/-- Witness for the amended C1: 18 quiet frames keep the segment alive
and the 19th quiet frame closes it, from the concrete post-event state. -/
theorem C1_amended_witness :
    run true (⟨0, 19, true, true⟩ : LoopState)
        (List.replicate 18 silentF ++ [silentF]) =
      ((⟨0, 0, false, false⟩ : LoopState),
        (List.replicate 18 silentF).map (fun g => Action.feed g.samples) ++
          [Action.flush, Action.transcriptionResult]) :=
  (C1_amended_holds ⟨0, 19, true, true⟩ rfl rfl rfl rfl).2
    (List.replicate 18 silentF) silentF (by decide) (by decide) (by decide) (by decide)

set_option maxRecDepth 40000 in
/-- C2 counterexample: from the initial state, 10 consecutive frames at
−20 dBFS fire `SpeechDetected` and reset `hot`, but once the 10th frame
is fully processed `hold` is 19, not `release_frames = 20` — the same
frame that re-armed it to 20 also decremented it. -/
theorem C2_counterexample :
    Action.speechDetected (-20) ∈ (run true initState (List.replicate 10 loudF)).2 ∧
    (run true initState (List.replicate 10 loudF)).1.hot = 0 ∧
    (run true initState (List.replicate 10 loudF)).1.hold = 19 ∧
    (run true initState (List.replicate 10 loudF)).1.hold ≠ release_frames := by
  decide

/-- C2 (amended): starting from the initial state, given exactly 10
consecutive non-empty frames with loudness strictly above −35 dBFS, no
`SpeechDetected` fires during the first 9 frames, the event fires on the
10th frame, `hot` is reset to 0 — and `hold` equals
`release_frames − 1 = 19` immediately after that frame is processed,
because the frame that sets `hold = 20` also decrements it. -/
theorem C2_amended_holds (fs9 : List FrameIn) (f10 : FrameIn)
    (hlen : fs9.length = 9)
    (h9 : ∀ g ∈ fs9, g.samples.length ≠ 0 ∧ trigger_dbfs < g.level)
    (hne : f10.samples.length ≠ 0) (hlev : trigger_dbfs < f10.level) :
    run true initState (fs9 ++ [f10]) =
      ((⟨0, 19, true, true⟩ : LoopState),
        fs9.map (fun g => Action.feed g.samples) ++
          [Action.speechDetected f10.level, Action.feed f10.samples]) ∧
    (∀ lv, Action.speechDetected lv ∉ (run true initState fs9).2) := by
  rcases fs9 with _ | ⟨f1, rest⟩
  · simp at hlen
  · have hf1 := h9 f1 (by simp)
    have hlenr : rest.length = 8 := by simpa using hlen
    have hstep1 : step true initState f1 =
        ((⟨1, 0, true, true⟩ : LoopState), [Action.feed f1.samples]) := by
      have h := step_loud_no_trigger initState f1 hf1.1 hf1.2
        (by norm_num [initState, trigger_frames]) rfl
      simpa [initState] using h
    have hrest : run true (⟨1, 0, true, true⟩ : LoopState) rest =
        ((⟨9, 0, true, true⟩ : LoopState),
          rest.map (fun g => Action.feed g.samples)) := by
      have h := run_loud rest ⟨1, 0, true, true⟩
        (fun g hg => h9 g (by simp [hg])) rfl rfl rfl
        (by simp [hlenr])
      rw [hlenr] at h
      norm_num at h
      exact h
    have hfs9run : run true initState (f1 :: rest) =
        ((⟨9, 0, true, true⟩ : LoopState),
          (f1 :: rest).map (fun g => Action.feed g.samples)) := by
      simp [run, hstep1, hrest]
    have hstep10 : step true (⟨9, 0, true, true⟩ : LoopState) f10 =
        ((⟨0, 19, true, true⟩ : LoopState),
          [Action.speechDetected f10.level, Action.feed f10.samples]) := by
      have h := step_loud_trigger ⟨9, 0, true, true⟩ f10 hne hlev
        (by norm_num [trigger_frames])
      norm_num [release_frames] at h
      exact h
    constructor
    · rw [run_append, hfs9run]
      dsimp only
      simp [run, hstep10]
    · rw [hfs9run]
      intro lv
      simp

/-- Witness for the amended C2 at a concrete input: 9 loud frames then a
10th loud frame, from the initial state. -/
theorem C2_amended_witness :
    run true initState (List.replicate 9 loudF ++ [loudF]) =
      ((⟨0, 19, true, true⟩ : LoopState),
        (List.replicate 9 loudF).map (fun g => Action.feed g.samples) ++
          [Action.speechDetected loudF.level, Action.feed loudF.samples]) ∧
    (∀ lv, Action.speechDetected lv ∉ (run true initState (List.replicate 9 loudF)).2) :=
  C2_amended_holds (List.replicate 9 loudF) loudF (by decide) (by decide)
    (by decide) (by decide)

set_option maxRecDepth 40000 in
/-- C3 counterexample: with the sink disabled, 10 frames at −20 dBFS do
fire `SpeechDetected`, yet `segment_active` and `segment_has_audio` stay
false — the guard `&& transcription_enabled` on line 87 of `main.cpp`
prevents the claimed internal transition to `Active`. -/
theorem C3_counterexample :
    (run false initState (List.replicate 10 loudF)).1.segment_active = false ∧
    (run false initState (List.replicate 10 loudF)).1.segment_has_audio = false ∧
    Action.speechDetected (-20) ∈ (run false initState (List.replicate 10 loudF)).2 := by
  decide

/-- C3 (amended): when the sink is disabled the machine never enters
`Active`: starting from a state with both flags false, `segment_active`
and `segment_has_audio` stay false for every input, no feed, flush or
`TranscriptionResult` occurs (the trace holds `SpeechDetected` events at
most), while `hot` and `hold` still evolve exactly as in an enabled run
started from the same counters. -/
theorem C3_amended_holds (s t : LoopState) (fs : List FrameIn)
    (hhot : s.hot = t.hot) (hhold : s.hold = t.hold)
    (hact : s.segment_active = false) (haud : s.segment_has_audio = false) :
    ((run false s fs).1.hot = (run true t fs).1.hot ∧
      (run false s fs).1.hold = (run true t fs).1.hold) ∧
    (run false s fs).1.segment_active = false ∧
    (run false s fs).1.segment_has_audio = false ∧
    (∀ a ∈ (run false s fs).2, ∃ lv, a = Action.speechDetected lv) := by
  induction fs generalizing s t with
  | nil => simp [run, hhot, hhold, hact, haud]
  | cons f rest ih =>
    have hij := step_hot_hold_indep false true s t f hhot hhold
    have hfl := step_disabled_flags s f hact
    have haud2 : (step false s f).1.segment_has_audio = false := by rw [hfl.2, haud]
    have hr := ih (step false s f).1 (step true t f).1 hij.1 hij.2 hfl.1 haud2
    simp only [run]
    refine ⟨hr.1, hr.2.1, hr.2.2.1, ?_⟩
    intro a ha
    rw [List.mem_append] at ha
    rcases ha with h | h
    · exact step_disabled_only_events s f a h
    · exact hr.2.2.2 a h

/-- Witness for the amended C3 at a concrete input: a disabled run over
10 loud frames, compared against the enabled run from the initial state. -/
theorem C3_amended_witness :
    ((run false initState (List.replicate 10 loudF)).1.hot =
        (run true initState (List.replicate 10 loudF)).1.hot ∧
      (run false initState (List.replicate 10 loudF)).1.hold =
        (run true initState (List.replicate 10 loudF)).1.hold) ∧
    (run false initState (List.replicate 10 loudF)).1.segment_active = false ∧
    (run false initState (List.replicate 10 loudF)).1.segment_has_audio = false ∧
    (∀ a ∈ (run false initState (List.replicate 10 loudF)).2,
      ∃ lv, a = Action.speechDetected lv) :=
  C3_amended_holds initState initState (List.replicate 10 loudF) rfl rfl rfl rfl

/-- C4 counterexample: an ALSA read error that `snd_pcm_recover` cannot
repair (readi −32, recover −5) makes `Impl::read` throw; the loop body
has no handler, so the session aborts on the spot — the following
successful read is never processed, its frame never reaches the state
machine, and no log is produced.  The claim says such a failure is caught
at the call site and the loop continues to the next frame. -/
theorem C4_counterexample :
    implRead (-32) (-5) = Except.error () ∧
    runReads true initState [ReadResult.fail, ReadResult.ok loudF] =
      (initState, [], true) :=
  ⟨rfl, rfl⟩

/-- C4 (amended): a read failure that `snd_pcm_recover` repairs (recover
returns 0) surfaces as an empty read, which the loop skips, continuing to
the next frame with every counter untouched; a read failure that recovery
cannot repair throws, and since the loop has no handler the session
terminates at that point — with the state-machine counters left exactly
as they were, but with no further frames processed.  Feed calls on an
available transcriber do not fail. -/
theorem C4_amended_holds :
    (∀ n : Int, n < 0 → implRead n 0 = Except.ok 0) ∧
    (∀ (enabled : Bool) (s : LoopState) (lv : ℚ) (rest : List ReadResult),
        runReads enabled s (ReadResult.ok ⟨[], lv⟩ :: rest) = runReads enabled s rest) ∧
    (∀ (enabled : Bool) (s : LoopState) (rest : List ReadResult),
        runReads enabled s (ReadResult.fail :: rest) = (s, [], true)) := by
  refine ⟨?_, ?_, ?_⟩
  · intro n hn
    simp [implRead, hn]
  · intro enabled s lv rest
    simp [runReads, step]
  · intro enabled s rest
    simp [runReads]

/-- Witness for the amended C4: the recovered-read clause applied at the
concrete ALSA error −32. -/
theorem C4_amended_witness :
    (-32 : Int) < 0 ∧ implRead (-32) 0 = Except.ok 0 :=
  ⟨by decide, C4_amended_holds.1 (-32) (by decide)⟩

/-- Sum-of-squares accumulation: the source's left fold equals the
mathematical sum of squared samples. -/
theorem foldl_add_sq (x : List Int) : ∀ a : ℝ,
    x.foldl (fun (acc : ℝ) (sample : Int) => acc + (sample : ℝ) * (sample : ℝ)) a =
      a + ((x.map fun (sample : Int) => (sample : ℝ) ^ 2).sum) := by
  induction x with
  | nil =>
    intro a
    simp
  | cons s rest ih =>
    intro a
    simp only [List.foldl_cons, List.map_cons, List.sum_cons]
    rw [ih]
    ring

/-- C5: for a non-empty frame the meter computes RMS as the square root
of the mean of the squared samples (the accumulation fold equals the sum
of squares), and dBFS as `20 * log10((rms + 1e-9) / 32768)`; the empty
frame has RMS `0.0` and its dBFS follows the same formula. -/
theorem C5_level_meter (x : List Int) (hx : x ≠ []) :
    rms x = Real.sqrt (((x.map fun (sample : Int) => (sample : ℝ) ^ 2).sum) / (x.length : ℝ)) ∧
    dbfs x = 20 * (Real.log ((rms x + 1 / 10 ^ 9) / 32768) / Real.log 10) ∧
    rms ([] : List Int) = 0 ∧
    dbfs ([] : List Int) = 20 * (Real.log ((0 + 1 / 10 ^ 9) / 32768) / Real.log 10) := by
  refine ⟨?_, ?_, ?_, ?_⟩
  · unfold rms
    rw [if_neg hx, foldl_add_sq x 0, zero_add]
  · simp [dbfs, Real.logb, epsFloor, fullScale]
  · simp [rms]
  · simp [dbfs, rms, Real.logb, epsFloor, fullScale]

/-- Witness for C5 at the concrete frame `[3, 4]`. -/
theorem C5_witness :
    (([3, 4] : List Int) ≠ []) ∧
    (rms [3, 4] =
        Real.sqrt (((([3, 4] : List Int).map fun (sample : Int) => (sample : ℝ) ^ 2).sum) /
          ((([3, 4] : List Int).length : ℝ))) ∧
      dbfs [3, 4] = 20 * (Real.log ((rms [3, 4] + 1 / 10 ^ 9) / 32768) / Real.log 10) ∧
      rms ([] : List Int) = 0 ∧
      dbfs ([] : List Int) = 20 * (Real.log ((0 + 1 / 10 ^ 9) / 32768) / Real.log 10)) :=
  ⟨by decide, C5_level_meter [3, 4] (by decide)⟩

/-- C8: every `flush` call and every `TranscriptionResult` event in a
session's trace is caused by some non-empty, non-speech-like frame of the
input.  In particular, when the loop exits because the shutdown flag went
false (the input list ends), nothing more is emitted: a session whose
frames are all speech-like — leaving a segment `Active` at shutdown —
contains no flush and no `TranscriptionResult` at all. -/
theorem C8_no_flush_without_silence (enabled : Bool) (s : LoopState) (fs : List FrameIn)
    (h : Action.flush ∈ (run enabled s fs).2 ∨
      Action.transcriptionResult ∈ (run enabled s fs).2) :
    ∃ f ∈ fs, f.samples.length ≠ 0 ∧ ¬ trigger_dbfs < f.level := by
  induction fs generalizing s with
  | nil => simp [run] at h
  | cons f rest ih =>
    simp only [run] at h
    rcases h with h | h <;> rw [List.mem_append] at h <;> rcases h with h | h
    · exact ⟨f, by simp, step_flush_needs_silence enabled s f (Or.inl h)⟩
    · obtain ⟨g, hg, hgp⟩ := ih (step enabled s f).1 (Or.inl h)
      exact ⟨g, by simp [hg], hgp⟩
    · exact ⟨f, by simp, step_flush_needs_silence enabled s f (Or.inr h)⟩
    · obtain ⟨g, hg, hgp⟩ := ih (step enabled s f).1 (Or.inr h)
      exact ⟨g, by simp [hg], hgp⟩

set_option maxRecDepth 40000 in
/-- Witness for C8: a run that does flush — 10 loud then 19 quiet frames
— applied to the theorem, exhibiting a quiet frame as the cause. -/
theorem C8_witness :
    ∃ f ∈ (List.replicate 10 loudF ++ List.replicate 19 silentF),
      f.samples.length ≠ 0 ∧ ¬ trigger_dbfs < f.level :=
  C8_no_flush_without_silence true initState
    (List.replicate 10 loudF ++ List.replicate 19 silentF) (Or.inl (by decide))

end Eva
